import Mathlib

/-!
Verification of the reliable-UDP file-transfer core of this repository
(`cn_lab2/server/common.h`, the embedded `client.cpp`, and
`cn_lab2/server/server.cpp`).

The shallow embedding follows the C++ source:

* machine integers are modelled as `Nat`, with an explicit `% 2 ^ 32`
  (written as the constant `U32`) wherever `uint32_t` arithmetic can wrap;
* the `double` congestion window `cwnd` is modelled as `ℚ` (all the
  arithmetic the program performs on it in the traces we evaluate is exact
  in binary64, so `ℚ` agrees with the C++ values there);
* `std::map` is modelled as an association list with `std::map`-style
  insert (overwrite-or-append) and erase;
* the C++ `while` loops are modelled either by well-founded recursion on a
  decreasing measure, or by structural recursion on an explicit fuel that
  provably dominates the number of iterations the C++ loop can perform.
-/

/-! ## Protocol constants

The repository snapshot contains **two** copies of `common.h`, concatenated
in `src/cn_lab2/server/common.h`.  The first copy (file lines 19–24) and the
second copy (file lines 128–134) disagree on `FLOW_CONTROL_WINDOW_SIZE` and
`PACKET_TIMEOUT_MS`; both are embedded verbatim below. -/

namespace HeaderA
/-- First copy of `common.h`, lines 19–24. -/
def SERVER_PORT : ℕ := 8888
def MAX_BUFFER_SIZE : ℕ := 1500
def HEADER_SIZE : ℕ := 20
def MAX_DATA_SIZE : ℕ := MAX_BUFFER_SIZE - HEADER_SIZE
def FLOW_CONTROL_WINDOW_SIZE : ℕ := 20
def PACKET_TIMEOUT_MS : ℕ := 500
end HeaderA

namespace HeaderB
/-- Second copy of `common.h`, lines 128–134 (the copy that also defines
`ROUTER_PORT`; the client and server sources in the snapshot follow it). -/
def SERVER_PORT : ℕ := 8888
def ROUTER_PORT : ℕ := 12345
def MAX_BUFFER_SIZE : ℕ := 1500
def HEADER_SIZE : ℕ := 20
def MAX_DATA_SIZE : ℕ := MAX_BUFFER_SIZE - HEADER_SIZE
def FLOW_CONTROL_WINDOW_SIZE : ℕ := 64
def PACKET_TIMEOUT_MS : ℕ := 1000
end HeaderB

/-- The modulus of `uint32_t` arithmetic, 2^32. -/
def U32 : ℕ := 4294967296

/-- Flag bits from `enum Flags`: `SYN = 1`, `ACK = 2`, `FIN = 4`. -/
def SYNflag : ℕ := 1
def ACKflag : ℕ := 2
def FINflag : ℕ := 4

/-! ## The packet structure

`struct Packet` is packed: `seq_num` (u32), `ack_num` (u32), `flags` (u16),
`window_size` (u16), `data_len` (u16), `checksum` (u16), `data[1480]`.
The fixed fields occupy bytes 0–15 and the data array bytes 16–1495. -/

structure Packet where
  seq_num : ℕ
  ack_num : ℕ
  flags : ℕ
  window_size : ℕ
  data_len : ℕ
  checksum : ℕ
  data : List ℕ
  deriving DecidableEq, Repr

/-- The all-zero packet (`Packet p = { 0 }` in the C++ source). -/
def zeroPacket : Packet :=
  { seq_num := 0, ack_num := 0, flags := 0, window_size := 0,
    data_len := 0, checksum := 0, data := List.replicate 1480 0 }

/-- Little-endian bytes of a 16-bit field. -/
def le2 (n : ℕ) : List ℕ := [n % 256, n / 256 % 256]

/-- Little-endian bytes of a 32-bit field. -/
def le4 (n : ℕ) : List ℕ :=
  [n % 256, n / 256 % 256, n / 65536 % 256, n / 16777216 % 256]

/-- The 1480-byte `data` array as it sits in memory: the stored bytes,
padded with zeros (every packet in the program is zero-initialised before
its payload is copied in). -/
def padData (p : Packet) : List ℕ :=
  p.data.take 1480 ++ List.replicate (1480 - p.data.length) 0

/-- The packed in-memory bytes of a `Packet` (little-endian host order, as
transmitted by the reference). -/
def packetBytes (p : Packet) : List ℕ :=
  le4 p.seq_num ++ le4 p.ack_num ++ le2 p.flags ++ le2 p.window_size ++
    le2 p.data_len ++ le2 p.checksum ++ padData p

/-! ## Checksum (`calculate_checksum` / `verify_checksum`, common.h) -/

/-- The 16-bit-word summation loop of `calculate_checksum`:
`while (size > 1) { sum += *p++; size -= 2; }` followed by
`if (size > 0) sum += *(uint8_t*)p;`.  Words are read little-endian
(`b0 + 256 * b1`); a final odd byte is added as the low byte. -/
def sumWords : List ℕ → ℕ
  | b0 :: b1 :: rest => (b0 + 256 * b1) + sumWords rest
  | [b] => b
  | [] => 0

/-- One fuelled unfolding of the carry-fold loop
`while (sum >> 16) sum = (sum & 0xFFFF) + (sum >> 16);`.
`sum >> 16` is `sum / 65536` and `sum & 0xFFFF` is `sum % 65536`.
Structural recursion on fuel keeps the function kernel-reducible; each
iteration strictly decreases `sum`, so fuel `s` always suffices for the
initial sum `s`. -/
def foldCarriesF : ℕ → ℕ → ℕ
  | 0, s => s
  | fuel + 1, s =>
    if s / 65536 ≠ 0 then foldCarriesF fuel (s % 65536 + s / 65536) else s

/-- The carry-fold loop of `calculate_checksum`. -/
def foldCarries (s : ℕ) : ℕ := foldCarriesF s s

/-- The byte region `calculate_checksum` sums: the first
`HEADER_SIZE + data_len` bytes of the packet, with the `checksum` field
temporarily set to 0.  (For `data_len > 1476` the C++ code reads past the
1496-byte struct; the model clips at the struct's bytes, and since both
computation and verification use the same region this does not affect any
claim below.) -/
def chkRegion (p : Packet) : List ℕ :=
  (packetBytes { p with checksum := 0 }).take (HeaderB.HEADER_SIZE + p.data_len)

/-- The function `calculate_checksum`, modelled as a pure function that also returns the
packet as it stands after the call (the C++ code zeroes the `checksum`
field, sums, then restores the original value).  The final
`static_cast<uint16_t>(~sum)` is `65535 - sum` for the folded `sum < 2^16`. -/
def calculate_checksum_run (p : Packet) : ℕ × Packet :=
  let original := p.checksum
  let p0 : Packet := { p with checksum := 0 }
  let r := 65535 - foldCarries (sumWords (chkRegion p))
  (r, { p0 with checksum := original })

/-- The return value of `calculate_checksum`. -/
def calculate_checksum (p : Packet) : ℕ := (calculate_checksum_run p).1

/-- The function `verify_checksum`: recompute and compare with the stored field. -/
def verify_checksum (p : Packet) : Bool :=
  calculate_checksum p == p.checksum

/-- The checksum algorithm as worded by the spec (§4.1): view the region as
16-bit little-endian words (final odd byte as the low byte of a word), sum
them, fold carries, complement. -/
def leWords : List ℕ → List ℕ
  | b0 :: b1 :: rest => (b0 + 256 * b1) :: leWords rest
  | [b] => [b]
  | [] => []

/-- The operation `compute_checksum` as described by the spec's words. -/
def checksum_of_spec (p : Packet) : ℕ :=
  65535 - foldCarries (leWords (chkRegion p)).sum

/-! ## Association-list model of `std::map` -/

/-- Lookup, as in `map.count(k) != 0` and `map[k]`: first binding of key `k`. -/
def lookupKey (k : ℕ) : List (ℕ × Packet) → Option Packet
  | [] => none
  | (a, v) :: rest => if a = k then some v else lookupKey k rest

/-- Erase, as in `map.erase(k)`: remove the binding of key `k` (keys are unique in every
list the program builds, so removing the first occurrence is exact). -/
def eraseKey (k : ℕ) : List (ℕ × Packet) → List (ℕ × Packet)
  | [] => []
  | (a, v) :: rest => if a = k then rest else (a, v) :: eraseKey k rest

/-- Insert, as in `map[k] = v`: overwrite the binding of `k` if present, else append. -/
def insertKey (k : ℕ) (v : Packet) : List (ℕ × Packet) → List (ℕ × Packet)
  | [] => [(k, v)]
  | (a, w) :: rest =>
    if a = k then (a, v) :: rest else (a, w) :: insertKey k v rest

/-- The keys of an association list. -/
def keysOf (l : List (ℕ × Packet)) : List ℕ := l.map Prod.fst

/-! ## Receiver core (`server.cpp`, main loop lines 91–159) -/

/-- Receiver state: the `expected_seq_num` cursor, the out-of-order
`receive_buffer`, and the bytes written to `received_file` so far. -/
structure RecvState where
  expected : ℕ
  buffer : List (ℕ × Packet)
  output : List ℕ
  deriving DecidableEq, Repr

/-- Initial receiver state: `expected_seq_num = 1`, empty buffer, empty file. -/
def initRecv : RecvState :=
  { expected := 1, buffer := [], output := [] }

/-- The bytes `output_file.write(p.data, p.data_len)` appends. -/
def writeBytes (p : Packet) : List ℕ := (padData p).take p.data_len

/-- The in-order drain loop of the receiver: while the buffer holds the
expected sequence number, write that packet, erase it, and advance
`expected_seq_num` (a `uint32_t`, hence the `% U32`).  Terminates because
each iteration erases a present key. -/
def drainLoop (e : ℕ) (buf : List (ℕ × Packet)) (out : List ℕ) :
    ℕ × List (ℕ × Packet) × List ℕ :=
  match h : lookupKey e buf with
  | some q => drainLoop ((e + 1) % U32) (eraseKey e buf) (out ++ writeBytes q)
  | none => (e, buf, out)
termination_by buf.length
decreasing_by
  induction buf with
  | nil => simp [lookupKey] at h
  | cons hd tl ih =>
    obtain ⟨a, v⟩ := hd
    by_cases hak : a = e
    · simp [eraseKey, hak]
    · simp only [lookupKey, hak, if_neg, ite_false] at h
      simp only [eraseKey, hak, ite_false, if_neg, List.length_cons]
      exact Nat.succ_lt_succ (ih h)

/-- One pass of the receiver's selective-acknowledgement logic for a data
packet (server.cpp lines 129–149): in-order packets are written and the
buffer drained; future packets are buffered; old packets are ignored. -/
def recvData (s : RecvState) (p : Packet) : RecvState :=
  if p.seq_num = s.expected then
    let r := drainLoop ((s.expected + 1) % U32) s.buffer (s.output ++ writeBytes p)
    { expected := r.1, buffer := r.2.1, output := r.2.2 }
  else if s.expected < p.seq_num then
    { s with buffer := insertKey p.seq_num p s.buffer }
  else s

/-- The ACK the receiver builds (server.cpp lines 154–157): a zeroed packet
with `flags = ACK`, `ack_num = expected_seq_num - 1` (u32 arithmetic), and
its checksum filled in. -/
def mkAckPacket (a : ℕ) : Packet :=
  let q : Packet := { zeroPacket with flags := ACKflag, ack_num := a }
  { q with checksum := calculate_checksum q }

/-- Processing of a data packet including the unconditional ACK emission
(steps 3 and 4 of the receiver loop).  The loop sends exactly one ACK per
data packet, built after the drain, which the return type makes explicit. -/
def stepData (s : RecvState) (p : Packet) : RecvState × Packet :=
  let s1 := recvData s p
  (s1, mkAckPacket ((s1.expected + (U32 - 1)) % U32))

/-- The FIN-ACK the receiver sends on FIN (server.cpp lines 107–110). -/
def mkFinAckPacket (p : Packet) : Packet :=
  let q : Packet := { zeroPacket with
    flags := ACKflag + FINflag
    ack_num := (p.seq_num + 1) % U32 }
  { q with checksum := calculate_checksum q }

/-- One full iteration of the receiver ingest loop (server.cpp lines
93–158), from `recvfrom` result to emitted packet: skip when `recv_len <= 0`;
discard on checksum failure; answer FIN with FIN-ACK and stop; otherwise
handle the data packet and ACK it.  The loop performs no length validation
beyond `recv_len <= 0`. -/
def serverIngest (s : RecvState) (recvLen : ℤ) (p : Packet) :
    RecvState × Option Packet :=
  if recvLen ≤ 0 then (s, none)
  else if !verify_checksum p then (s, none)
  else if (p.flags &&& FINflag) != 0 then (s, some (mkFinAckPacket p))
  else
    let r := stepData s p
    (r.1, some r.2)

/-- The receiver state after ingesting a list of `(recv_len, packet)`
datagrams from the initial state. -/
def runRecv (inputs : List (ℤ × Packet)) : RecvState :=
  inputs.foldl (fun s ip => (serverIngest s ip.1 ip.2).1) initRecv

/-! ## TCP Reno congestion controller (client.cpp, `receive_acks` and the
timeout branch of `main`) -/

inductive CongestionState where
  | SLOW_START
  | CONGESTION_AVOIDANCE
  | FAST_RECOVERY
  deriving DecidableEq, Repr

open CongestionState

/-- The congestion-control variables of client.cpp lines 279–282:
`double cwnd` (modelled as `ℚ`), `uint32_t ssthresh`, the Reno state and
`int duplicate_ack_count`. -/
structure CC where
  cwnd : ℚ
  ssthresh : ℕ
  state : CongestionState
  dup_ack_count : ℕ
  deriving DecidableEq, Repr

/-- Initial controller values: `cwnd = 1.0`, `ssthresh = 16`,
`state = SLOW_START`, `duplicate_ack_count = 0`. -/
def initCC : CC :=
  { cwnd := 1, ssthresh := 16, state := SLOW_START, dup_ack_count := 0 }

/-- The value `(std::max)(2.0, cwnd / 2.0)` assigned to the `uint32_t ssthresh`:
the C++ double-to-unsigned conversion truncates toward zero, and the value
is at least 2, so it is `Nat.floor`. -/
def halvedSsthresh (cwnd : ℚ) : ℕ := ⌊max 2 (cwnd / 2)⌋₊

/-- The new-cumulative-ACK branch of `receive_acks`
(client.cpp lines 318–350), congestion part: reset the duplicate counter,
then adjust `cwnd` according to the Reno state. -/
def onNewAck (cc : CC) : CC :=
  let cc0 := { cc with dup_ack_count := 0 }
  match cc.state with
  | FAST_RECOVERY =>
    { cc0 with state := CONGESTION_AVOIDANCE, cwnd := (cc.ssthresh : ℚ) }
  | SLOW_START =>
    let c := cc.cwnd + 1
    if c ≥ (cc.ssthresh : ℚ) then { cc0 with cwnd := c, state := CONGESTION_AVOIDANCE }
    else { cc0 with cwnd := c }
  | CONGESTION_AVOIDANCE =>
    { cc0 with cwnd := cc.cwnd + 1 / cc.cwnd }

/-- The duplicate-ACK branch of `receive_acks` (client.cpp lines 351–369):
always increment the counter; in fast recovery inflate `cwnd` by one;
otherwise, on the third duplicate, enter fast recovery, halve `ssthresh`,
set `cwnd = ssthresh + 3` and signal a fast retransmit of `send_base`
(the returned `Option ℕ` is the `retransmit_seq_num` notification). -/
def onDupAck (cc : CC) (send_base : ℕ) : CC × Option ℕ :=
  let cc1 := { cc with dup_ack_count := cc.dup_ack_count + 1 }
  if cc.state = FAST_RECOVERY then
    ({ cc1 with cwnd := cc.cwnd + 1 }, none)
  else if cc1.dup_ack_count = 3 then
    let th := halvedSsthresh cc.cwnd
    ({ cc1 with
        state := FAST_RECOVERY
        ssthresh := th
        cwnd := (th : ℚ) + 3 }, some send_base)
  else (cc1, none)

/-- The timeout branch of the sender main loop (client.cpp lines 488–492):
back to slow start, `ssthresh = max(2.0, cwnd/2.0)`, `cwnd = 1`, counter
reset. -/
def onTimeout (cc : CC) : CC :=
  { cc with
      state := SLOW_START
      ssthresh := halvedSsthresh cc.cwnd
      cwnd := 1
      dup_ack_count := 0 }

/-- A controller event: a new cumulative ACK, a duplicate ACK, or a
retransmission timeout. -/
inductive CCEvent where
  | newAck
  | dupAck
  | timeout
  deriving DecidableEq, Repr

/-- Apply one controller event (the duplicate-ACK signal and `send_base`
bookkeeping are irrelevant to the congestion variables). -/
def applyEvent (cc : CC) : CCEvent → CC
  | CCEvent.newAck => onNewAck cc
  | CCEvent.dupAck => (onDupAck cc 0).1
  | CCEvent.timeout => onTimeout cc

/-- The controller state after a list of events from the initial state. -/
def applyEvents (evs : List CCEvent) : CC :=
  evs.foldl applyEvent initCC

/-- The full ACK-handler dispatch of `receive_acks` (lines 318–369): a new
ACK (`acked_num >= send_base`) advances `send_base = acked_num + 1`, erases
every window entry with key `<= acked_num`, and updates the controller; a
duplicate ACK goes through `onDupAck`.  Returns the new controller state,
the new `send_base`, the new send window and the fast-retransmit signal. -/
def receiveAckStep (cc : CC) (send_base : ℕ) (window : List (ℕ × Packet))
    (acked : ℕ) : CC × ℕ × List (ℕ × Packet) × Option ℕ :=
  if send_base ≤ acked then
    (onNewAck cc, (acked + 1) % U32, window.filter (fun pr => ¬ pr.1 ≤ acked), none)
  else
    let r := onDupAck cc send_base
    (r.1, send_base, window, r.2)

/-- The receive gate of the ACK task (client.cpp line 310): an incoming
packet is acted on only when `verify_checksum` passes and the ACK bit is
set; otherwise all shared state is untouched. -/
def ackTaskStep (cc : CC) (send_base : ℕ) (window : List (ℕ × Packet))
    (p : Packet) : CC × ℕ × List (ℕ × Packet) × Option ℕ :=
  if verify_checksum p && ((p.flags &&& ACKflag) != 0) then
    receiveAckStep cc send_base window p.ack_num
  else (cc, send_base, window, none)

/-! ## Sender: handshake acceptance tests and the new-data admission loop -/

/-- The server's SYN test (server.cpp line 66): `recv_packet.flags & SYN`,
with no checksum verification. -/
def server_accepts_syn (p : Packet) : Bool := (p.flags &&& SYNflag) != 0

/-- The client's SYN-ACK test (client.cpp line 427):
`recv_packet.flags == (SYN | ACK)`, with no checksum verification. -/
def client_accepts_synack (p : Packet) : Bool := p.flags == (SYNflag + ACKflag)

/-- The server's final-handshake-ACK test (server.cpp line 78):
`recv_packet.flags & ACK`, with no checksum verification. -/
def server_accepts_handshake_ack (p : Packet) : Bool := (p.flags &&& ACKflag) != 0

/-- A data packet as built by the admission loop (client.cpp lines
504–508): zero-initialised, `seq_num = next_seq_num`, `data_len` bytes of
payload copied in, checksum filled last. -/
def buildDataPacket (seq : ℕ) (payload : List ℕ) : Packet :=
  let q : Packet := { zeroPacket with
    seq_num := seq
    data_len := payload.length
    data := payload ++ List.replicate (1480 - payload.length) 0 }
  { q with checksum := calculate_checksum q }

/-- The new-data admission loop of the sender (client.cpp lines 499–523):
while `send_window.size() < min((double)FLOW_CONTROL_WINDOW_SIZE, cwnd)`
(a comparison performed on doubles, modelled on `ℚ`) and file bytes remain,
cut `min(MAX_DATA_SIZE, remaining)` bytes, build and "send" the packet,
insert it into the window, and advance `next_seq_num` and the cursor.
Structural recursion on fuel; every iteration consumes at least one file
byte, so any fuel above `file.length - sent` reproduces the C++ loop. -/
def sendLoopF (fuel : ℕ) (window : List (ℕ × Packet)) (next_seq sent : ℕ)
    (file : List ℕ) (cwnd : ℚ) : List (ℕ × Packet) × ℕ × ℕ :=
  match fuel with
  | 0 => (window, next_seq, sent)
  | fuel + 1 =>
    if (window.length : ℚ) < min (HeaderB.FLOW_CONTROL_WINDOW_SIZE : ℚ) cwnd
        ∧ sent < file.length then
      let d := min HeaderB.MAX_DATA_SIZE (file.length - sent)
      let p := buildDataPacket next_seq ((file.drop sent).take d)
      sendLoopF fuel (insertKey next_seq p window) ((next_seq + 1) % U32)
        (sent + d) file cwnd
    else (window, next_seq, sent)

/-- The admission loop with fuel that dominates every possible iteration
count. -/
def sendLoop (window : List (ℕ × Packet)) (next_seq sent : ℕ)
    (file : List ℕ) (cwnd : ℚ) : List (ℕ × Packet) × ℕ × ℕ :=
  sendLoopF (file.length - sent + 1) window next_seq sent file cwnd

/-! ## Helper lemmas -/

/-- The function `calculate_checksum` does not depend on the stored checksum field. -/
theorem calculate_checksum_set (p : Packet) (c : ℕ) :
    calculate_checksum { p with checksum := c } = calculate_checksum p := by
  cases p
  rfl

/-- The word-summation loop equals the sum of the little-endian word list. -/
theorem sumWords_eq_leWords_sum (l : List ℕ) : sumWords l = (leWords l).sum := by
  induction l using sumWords.induct with
  | case1 b0 b1 rest ih => simp [sumWords, leWords, ih]
  | case2 b => simp [sumWords, leWords]
  | case3 => simp [sumWords, leWords]

/-! ## Claim theorems -/

/-- C9 (corrected), counterexample: the first copy of the shared header
in the repository sets `FLOW_CONTROL_WINDOW_SIZE = 20` and
`PACKET_TIMEOUT_MS = 500`, not the claimed 64 and 1000, so the claimed
values do not hold in every copy of the header. -/
theorem C9_counterexample :
    HeaderA.FLOW_CONTROL_WINDOW_SIZE = 20 ∧ HeaderA.PACKET_TIMEOUT_MS = 500 ∧
    ¬ (HeaderA.FLOW_CONTROL_WINDOW_SIZE = 64 ∧ HeaderA.PACKET_TIMEOUT_MS = 1000) := by
  exact ⟨rfl, rfl, fun h => absurd h.1 (by decide)⟩

/-- C9 (amended): the claimed constants all hold in the second copy of
`common.h` (the copy the client/server sources in the snapshot follow),
together with the client's initial `ssthresh = 16` and `cwnd = 1`;
the first copy agrees on `SERVER_PORT`, `MAX_BUFFER_SIZE`, `HEADER_SIZE`
and `MAX_DATA_SIZE` but sets `FLOW_CONTROL_WINDOW_SIZE = 20` and
`PACKET_TIMEOUT_MS = 500`. -/
theorem C9_header_constants :
    HeaderB.SERVER_PORT = 8888 ∧ HeaderB.MAX_BUFFER_SIZE = 1500 ∧
    HeaderB.HEADER_SIZE = 20 ∧ HeaderB.MAX_DATA_SIZE = 1480 ∧
    HeaderB.FLOW_CONTROL_WINDOW_SIZE = 64 ∧ HeaderB.PACKET_TIMEOUT_MS = 1000 ∧
    initCC.ssthresh = 16 ∧ initCC.cwnd = 1 ∧
    HeaderA.SERVER_PORT = 8888 ∧ HeaderA.MAX_BUFFER_SIZE = 1500 ∧
    HeaderA.HEADER_SIZE = 20 ∧ HeaderA.MAX_DATA_SIZE = 1480 ∧
    HeaderA.FLOW_CONTROL_WINDOW_SIZE = 20 ∧ HeaderA.PACKET_TIMEOUT_MS = 500 := by
  decide

/-- C10 (confirmed): `calculate_checksum` returns the same value
whatever the checksum field holds (the field is zeroed for the
computation), and the packet after the call — checksum field included,
which the code restores — equals the packet before the call. -/
theorem C10_checksum_frame :
    ∀ (p : Packet) (c : ℕ),
      (calculate_checksum_run { p with checksum := c }).1
        = (calculate_checksum_run { p with checksum := 0 }).1
      ∧ (calculate_checksum_run p).2 = p := by
  intro p c
  cases p
  exact ⟨rfl, rfl⟩

/-- C5 (confirmed): `calculate_checksum` computes exactly the spec's
one's-complement algorithm (sum the `20 + data_len`-byte region as 16-bit
little-endian words with the checksum field zeroed and a final odd byte as
a low byte, fold the carries, complement), and every packet whose checksum
field is set to `calculate_checksum` of itself passes `verify_checksum`. -/
theorem C5_checksum_selfverify :
    ∀ p : Packet,
      verify_checksum { p with checksum := calculate_checksum p } = true
      ∧ calculate_checksum p = checksum_of_spec p := by
  intro p
  constructor
  · simp [verify_checksum, calculate_checksum_set]
  · simp [calculate_checksum, calculate_checksum_run, checksum_of_spec,
      sumWords_eq_leWords_sum]

/-- The truncated halving never drops `ssthresh` below 2. -/
theorem two_le_halvedSsthresh (c : ℚ) : 2 ≤ halvedSsthresh c := by
  have h2 : ((2 : ℕ) : ℚ) ≤ max 2 (c / 2) := by
    push_cast
    exact le_max_left _ _
  exact Nat.le_floor h2

/-- C3 (confirmed): in the sender's ACK handler a duplicate ACK
(`ack_num < send_base`) outside fast recovery that brings
`duplicate_ack_count` to exactly 3 switches to `FAST_RECOVERY`, sets
`ssthresh = max(2.0, cwnd/2.0)` (stored into the `uint32_t ssthresh`,
hence `halvedSsthresh`), sets `cwnd = ssthresh + 3`, and signals a fast
retransmit of `send_base`; once in fast recovery every further duplicate
ACK only inflates `cwnd` by 1 and signals nothing. -/
theorem C3_fast_retransmit (cc : CC) (sb ack : ℕ)
    (window : List (ℕ × Packet)) (hdup : ack < sb) :
    (cc.state ≠ CongestionState.FAST_RECOVERY → cc.dup_ack_count = 2 →
      receiveAckStep cc sb window ack =
        ({ cwnd := (halvedSsthresh cc.cwnd : ℚ) + 3
           ssthresh := halvedSsthresh cc.cwnd
           state := CongestionState.FAST_RECOVERY
           dup_ack_count := 3 }, sb, window, some sb))
    ∧ (cc.state = CongestionState.FAST_RECOVERY →
      receiveAckStep cc sb window ack =
        ({ cc with
            cwnd := cc.cwnd + 1
            dup_ack_count := cc.dup_ack_count + 1 }, sb, window, none)) := by
  have hnotle : ¬ sb ≤ ack := by omega
  constructor
  · intro hst hcnt
    simp [receiveAckStep, hnotle, onDupAck, hst, hcnt]
  · intro hst
    simp [receiveAckStep, hnotle, onDupAck, hst]

/-- Witness for C3: a concrete third duplicate ACK in slow start with
`cwnd = 8` yields `ssthresh = 4`, `cwnd = 7`, fast recovery, and a fast
retransmit signal for `send_base = 7`. -/
theorem C3_fast_retransmit_witness :
    receiveAckStep
        { cwnd := 8, ssthresh := 16, state := CongestionState.SLOW_START,
          dup_ack_count := 2 } 7 [] 3
      = ({ cwnd := 7, ssthresh := 4, state := CongestionState.FAST_RECOVERY,
           dup_ack_count := 3 }, 7, [], some 7) := by
  rw [(C3_fast_retransmit
    { cwnd := 8, ssthresh := 16, state := CongestionState.SLOW_START,
      dup_ack_count := 2 } 7 3 [] (by decide)).1 (by decide) (by decide)]
  norm_num [halvedSsthresh]

/-- The Reno invariant `cwnd ≥ 1 ∧ ssthresh ≥ 2` survives one controller
event. -/
theorem CCInv_applyEvent (cc : CC) (h1 : 1 ≤ cc.cwnd) (h2 : 2 ≤ cc.ssthresh)
    (ev : CCEvent) :
    1 ≤ (applyEvent cc ev).cwnd ∧ 2 ≤ (applyEvent cc ev).ssthresh := by
  have hth2 : (2 : ℚ) ≤ (cc.ssthresh : ℚ) := by exact_mod_cast h2
  have hth : (1 : ℚ) ≤ (cc.ssthresh : ℚ) := by linarith
  cases ev with
  | newAck =>
    cases hst : cc.state with
    | FAST_RECOVERY =>
      simp only [applyEvent, onNewAck, hst]
      exact ⟨hth, h2⟩
    | SLOW_START =>
      simp only [applyEvent, onNewAck, hst]
      by_cases hc : cc.cwnd + 1 ≥ (cc.ssthresh : ℚ) <;>
          simp [hc] <;> constructor
      · linarith
      · exact h2
      · linarith
      · exact h2
    | CONGESTION_AVOIDANCE =>
      simp only [applyEvent, onNewAck, hst]
      have hpos : 0 < cc.cwnd := by linarith
      have : 0 ≤ 1 / cc.cwnd := by positivity
      exact ⟨by linarith, h2⟩
  | dupAck =>
    by_cases hst : cc.state = CongestionState.FAST_RECOVERY
    · simp only [applyEvent, onDupAck, hst]
      simp
      exact ⟨by linarith, h2⟩
    · by_cases hcnt : cc.dup_ack_count + 1 = 3
      · simp only [applyEvent, onDupAck, hst, hcnt]
        simp
        have := two_le_halvedSsthresh cc.cwnd
        have hcast : (2 : ℚ) ≤ (halvedSsthresh cc.cwnd : ℚ) := by
          exact_mod_cast this
        exact ⟨by linarith, this⟩
      · simp only [applyEvent, onDupAck, hst, hcnt]
        simp [hcnt]
        exact ⟨h1, h2⟩
  | timeout =>
    simp only [applyEvent, onTimeout]
    exact ⟨by norm_num, two_le_halvedSsthresh cc.cwnd⟩

/-- C6 (confirmed): after any sequence of controller events (new
cumulative ACK, duplicate ACK, retransmission timeout) from the initial
state `cwnd = 1.0`, `ssthresh = 16`, the invariants `cwnd ≥ 1` and
`ssthresh ≥ 2` hold. -/
theorem C6_controller_invariant :
    ∀ evs : List CCEvent,
      1 ≤ (applyEvents evs).cwnd ∧ 2 ≤ (applyEvents evs).ssthresh := by
  have main : ∀ (evs : List CCEvent) (cc : CC),
      1 ≤ cc.cwnd → 2 ≤ cc.ssthresh →
      1 ≤ (evs.foldl applyEvent cc).cwnd ∧ 2 ≤ (evs.foldl applyEvent cc).ssthresh := by
    intro evs
    induction evs with
    | nil => intro cc h1 h2; exact ⟨h1, h2⟩
    | cons ev rest ih =>
      intro cc h1 h2
      have h := CCInv_applyEvent cc h1 h2 ev
      exact ih (applyEvent cc ev) h.1 h.2
  intro evs
  exact main evs initCC (by norm_num [initCC]) (by norm_num [initCC])

/-- A SYN-ACK whose checksum field is wrong (the correct value for this
packet is 65532, the field holds 0). -/
def pBadSynAck : Packet := { zeroPacket with flags := 3 }

/-- An all-zero data packet carrying its correct checksum (65535). -/
def pGoodZero : Packet := { zeroPacket with checksum := 65535 }

/-- C7 (corrected), counterexample: the client's handshake acceptance
test for a SYN-ACK is `flags == (SYN|ACK)` alone — a SYN-ACK with an
invalid checksum is still acted upon, so control packets are not all
discarded on checksum failure. -/
theorem C7_counterexample :
    client_accepts_synack pBadSynAck = true
    ∧ verify_checksum pBadSynAck = false := by
  constructor
  · decide
  · decide

/-- C7 (amended): packets arriving in the two data paths (the
receiver's main loop — which is where FIN is seen — and the sender's ACK
task, which receives the data ACKs and the FIN-ACK) are discarded with no
state change when checksum verification fails; but the three handshake
acceptance tests (SYN at the server, SYN-ACK at the client, final ACK at
the server) depend on the flags alone and ignore the checksum field
entirely. -/
theorem C7_control_packet_integrity :
    (∀ p : Packet, verify_checksum p = false →
      (∀ (s : RecvState) (rl : ℤ), serverIngest s rl p = (s, none))
      ∧ (∀ (cc : CC) (sb : ℕ) (win : List (ℕ × Packet)),
          ackTaskStep cc sb win p = (cc, sb, win, none)))
    ∧ (∀ (p : Packet) (c : ℕ),
        client_accepts_synack { p with checksum := c } = client_accepts_synack p
        ∧ server_accepts_syn { p with checksum := c } = server_accepts_syn p
        ∧ server_accepts_handshake_ack { p with checksum := c }
            = server_accepts_handshake_ack p) := by
  constructor
  · intro p hv
    constructor
    · intro s rl
      by_cases hrl : rl ≤ 0
      · simp [serverIngest, hrl]
      · simp [serverIngest, hrl, hv]
    · intro cc sb win
      simp [ackTaskStep, hv]
  · intro p c
    cases p
    exact ⟨rfl, rfl, rfl⟩

/-- Witness for C7 (amended): the concrete corrupted packet is dropped
without state change by both data paths. -/
theorem C7_control_packet_integrity_witness :
    serverIngest initRecv 1500 pBadSynAck = (initRecv, none)
    ∧ ackTaskStep initCC 1 [] pBadSynAck = (initCC, 1, [], none) := by
  have h := C7_control_packet_integrity.1 pBadSynAck (by decide)
  exact ⟨h.1 initRecv 1500, h.2 initCC 1 []⟩

/-- C8 (corrected), counterexample: the receiver performs no length
validation — a 1-byte datagram (`recv_len = 1 < 20`) whose buffer contents
happen to carry a valid checksum is fully processed and acknowledged, not
rejected. -/
theorem C8_counterexample :
    ¬ (∀ (s : RecvState) (rl : ℤ) (p : Packet),
        (rl < 20 ∨ (p.data_len : ℤ) > rl - 20) →
        serverIngest s rl p = (s, none)) := by
  intro hclaim
  have h := hclaim initRecv 1 pGoodZero (Or.inl (by decide))
  have hsome : (serverIngest initRecv 1 pGoodZero).2.isSome = true := by decide
  rw [h] at hsome
  simp at hsome

/-- C8 (amended): an incoming datagram is dropped before any delivery
or ACK processing exactly when `recvfrom` returned a length `≤ 0` or the
checksum over the packet buffer fails; no check against the 20-byte header
size or against `data_len` exceeding the received length exists, and every
drop leaves the receiver state unchanged. -/
theorem C8_ingest_gate :
    ∀ (s : RecvState) (rl : ℤ) (p : Packet),
      ((serverIngest s rl p).2 = none ↔ (rl ≤ 0 ∨ verify_checksum p = false))
      ∧ ((rl ≤ 0 ∨ verify_checksum p = false) → serverIngest s rl p = (s, none)) := by
  intro s rl p
  by_cases hrl : rl ≤ 0
  · simp [serverIngest, hrl]
  · by_cases hv : verify_checksum p
    · by_cases hf : (p.flags &&& FINflag) = 0
      · simp [serverIngest, hrl, hv, hf]
      · simp [serverIngest, hrl, hv, hf]
    · simp only [Bool.not_eq_true] at hv
      simp [serverIngest, hrl, hv]

/-- Witness for C8 (amended): a `recvfrom` result of 0 is skipped. -/
theorem C8_ingest_gate_witness :
    serverIngest initRecv 0 pGoodZero = (initRecv, none) := by
  exact (C8_ingest_gate initRecv 0 pGoodZero).2 (Or.inl (by decide))

/-! ## Association-list lemmas -/

theorem lookupKey_none_ne {k : ℕ} {l : List (ℕ × Packet)}
    (h : lookupKey k l = none) : ∀ pr ∈ l, pr.1 ≠ k := by
  induction l with
  | nil => intro pr hpr; simp at hpr
  | cons hd tl ih =>
    obtain ⟨a, v⟩ := hd
    by_cases hak : a = k
    · simp [lookupKey, hak] at h
    · intro pr hpr
      rcases List.mem_cons.mp hpr with hpr | hpr
      · subst hpr; exact hak
      · simp only [lookupKey, hak, ite_false, if_neg] at h
        exact ih h pr hpr

theorem mem_eraseKey {k : ℕ} {l : List (ℕ × Packet)} {pr : ℕ × Packet}
    (h : pr ∈ eraseKey k l) : pr ∈ l := by
  induction l with
  | nil => simp [eraseKey] at h
  | cons hd tl ih =>
    obtain ⟨a, v⟩ := hd
    by_cases hak : a = k
    · simp only [eraseKey, hak, ite_true, if_pos] at h
      exact List.mem_cons_of_mem _ h
    · simp only [eraseKey, hak, ite_false, if_neg] at h
      rcases List.mem_cons.mp h with h | h
      · exact h ▸ List.mem_cons_self _ _
      · exact List.mem_cons_of_mem _ (ih h)

theorem nodup_eraseKey {k : ℕ} {l : List (ℕ × Packet)}
    (h : (keysOf l).Nodup) : (keysOf (eraseKey k l)).Nodup := by
  induction l with
  | nil => simpa [eraseKey] using h
  | cons hd tl ih =>
    obtain ⟨a, v⟩ := hd
    simp only [keysOf, List.map_cons, List.nodup_cons] at h
    by_cases hak : a = k
    · simpa [eraseKey, hak, keysOf] using h.2
    · simp only [eraseKey, hak, ite_false, if_neg, keysOf, List.map_cons,
        List.nodup_cons]
      refine ⟨fun hmem => h.1 ?_, ih h.2⟩
      obtain ⟨pr, hpr, hfst⟩ := List.mem_map.mp hmem
      exact List.mem_map.mpr ⟨pr, mem_eraseKey hpr, hfst⟩

theorem eraseKey_ne_key {k : ℕ} {l : List (ℕ × Packet)}
    (hnd : (keysOf l).Nodup) : ∀ pr ∈ eraseKey k l, pr.1 ≠ k := by
  induction l with
  | nil => intro pr hpr; simp [eraseKey] at hpr
  | cons hd tl ih =>
    obtain ⟨a, v⟩ := hd
    simp only [keysOf, List.map_cons, List.nodup_cons] at hnd
    by_cases hak : a = k
    · simp only [eraseKey, hak, ite_true, if_pos]
      intro pr hpr heq
      exact hnd.1 (List.mem_map.mpr ⟨pr, hpr, by rw [heq, hak]⟩)
    · simp only [eraseKey, hak, ite_false, if_neg]
      intro pr hpr
      rcases List.mem_cons.mp hpr with hpr | hpr
      · rw [hpr]; exact hak
      · exact ih hnd.2 pr hpr

theorem mem_insertKey {k : ℕ} {v : Packet} {l : List (ℕ × Packet)}
    {pr : ℕ × Packet} (h : pr ∈ insertKey k v l) : pr = (k, v) ∨ pr ∈ l := by
  induction l with
  | nil => simpa [insertKey] using h
  | cons hd tl ih =>
    obtain ⟨a, w⟩ := hd
    by_cases hak : a = k
    · simp only [insertKey, hak, ite_true, if_pos] at h
      rcases List.mem_cons.mp h with h | h
      · left; exact h
      · right; exact List.mem_cons_of_mem _ h
    · simp only [insertKey, hak, ite_false, if_neg] at h
      rcases List.mem_cons.mp h with h | h
      · right; exact h ▸ List.mem_cons_self _ _
      · rcases ih h with h | h
        · left; exact h
        · right; exact List.mem_cons_of_mem _ h

theorem keysOf_insertKey {k : ℕ} {v : Packet} {l : List (ℕ × Packet)}
    {x : ℕ} (h : x ∈ keysOf (insertKey k v l)) : x = k ∨ x ∈ keysOf l := by
  obtain ⟨pr, hpr, hfst⟩ := List.mem_map.mp h
  rcases mem_insertKey hpr with hpr | hpr
  · left; rw [← hfst, hpr]
  · right; exact List.mem_map.mpr ⟨pr, hpr, hfst⟩

theorem nodup_insertKey {k : ℕ} {v : Packet} {l : List (ℕ × Packet)}
    (h : (keysOf l).Nodup) : (keysOf (insertKey k v l)).Nodup := by
  induction l with
  | nil => simp [insertKey, keysOf]
  | cons hd tl ih =>
    obtain ⟨a, w⟩ := hd
    simp only [keysOf, List.map_cons, List.nodup_cons] at h
    by_cases hak : a = k
    · subst hak
      simp only [insertKey, ite_true, if_pos, keysOf, List.map_cons,
        List.nodup_cons]
      exact ⟨h.1, h.2⟩
    · simp only [insertKey, hak, ite_false, if_neg, keysOf, List.map_cons,
        List.nodup_cons]
      refine ⟨fun hmem => ?_, ih h.2⟩
      rcases keysOf_insertKey hmem with hx | hx
      · exact hak hx
      · exact h.1 hx

theorem insertKey_length {k : ℕ} {v : Packet} (l : List (ℕ × Packet)) :
    (insertKey k v l).length ≤ l.length + 1 := by
  induction l with
  | nil => simp [insertKey]
  | cons hd tl ih =>
    obtain ⟨a, w⟩ := hd
    by_cases hak : a = k
    · simp [insertKey, hak]
    · simp only [insertKey, hak, ite_false, if_neg, List.length_cons]
      omega

/-! ## Receiver invariant -/

/-- The receiver invariant: the cursor is a `uint32_t` value, buffer keys
are unique, and every buffered key lies strictly between `expected` and
`2^32`. -/
def RecvInv (s : RecvState) : Prop :=
  s.expected < U32 ∧ (keysOf s.buffer).Nodup ∧
    ∀ pr ∈ s.buffer, s.expected < pr.1 ∧ pr.1 < U32


/-- Unfolding equation for `drainLoop` when the cursor is buffered. -/
theorem drainLoop_eq_some {e : ℕ} {buf : List (ℕ × Packet)} {out : List ℕ}
    {q : Packet} (h : lookupKey e buf = some q) :
    drainLoop e buf out
      = drainLoop ((e + 1) % U32) (eraseKey e buf) (out ++ writeBytes q) := by
  rw [drainLoop]
  split
  next q' heq =>
    rw [h] at heq
    injection heq with heq
    rw [heq]
  next heq =>
    rw [h] at heq
    cases heq

/-- Unfolding equation for `drainLoop` when the cursor is not buffered. -/
theorem drainLoop_eq_none {e : ℕ} {buf : List (ℕ × Packet)} {out : List ℕ}
    (h : lookupKey e buf = none) :
    drainLoop e buf out = (e, buf, out) := by
  rw [drainLoop]
  split
  next q' heq =>
    rw [h] at heq
    cases heq
  next heq => rfl

/-- Invariant of the drain loop: if every buffered key is at least the
cursor (and below `2^32`, with unique keys), then after draining every
remaining key is strictly above the final cursor. -/
theorem drainLoop_inv :
    ∀ (e : ℕ) (buf : List (ℕ × Packet)) (out : List ℕ),
      e < U32 → (keysOf buf).Nodup →
      (∀ pr ∈ buf, e ≤ pr.1 ∧ pr.1 < U32) →
      (drainLoop e buf out).1 < U32
      ∧ (keysOf (drainLoop e buf out).2.1).Nodup
      ∧ ∀ pr ∈ (drainLoop e buf out).2.1,
          (drainLoop e buf out).1 < pr.1 ∧ pr.1 < U32 := by
  intro e buf out
  induction e, buf, out using drainLoop.induct with
  | case1 e buf out q hlk ih =>
    intro he hnd hb
    have hU : (0 : ℕ) < U32 := by norm_num [U32]
    rw [drainLoop_eq_some hlk]
    refine ih (Nat.mod_lt _ hU) (nodup_eraseKey hnd) ?_
    intro pr hpr
    obtain ⟨hle, hlt⟩ := hb pr (mem_eraseKey hpr)
    have hne := eraseKey_ne_key hnd pr hpr
    have hgt : e < pr.1 := lt_of_le_of_ne hle (Ne.symm hne)
    by_cases hlt1 : e + 1 < U32
    · rw [Nat.mod_eq_of_lt hlt1]
      exact ⟨hgt, hlt⟩
    · exfalso
      omega
  | case2 e buf out hlk =>
    intro he hnd hb
    rw [drainLoop_eq_none hlk]
    refine ⟨he, hnd, fun pr hpr => ?_⟩
    obtain ⟨hle, hlt⟩ := hb pr hpr
    have hne := lookupKey_none_ne hlk pr hpr
    exact ⟨lt_of_le_of_ne hle (Ne.symm hne), hlt⟩

/-- The selective-acknowledgement step preserves the receiver invariant. -/
theorem RecvInv_recvData (s : RecvState) (p : Packet) (hp : p.seq_num < U32)
    (h : RecvInv s) : RecvInv (recvData s p) := by
  obtain ⟨he, hnd, hb⟩ := h
  unfold recvData
  by_cases h1 : p.seq_num = s.expected
  · rw [if_pos h1]
    have hU : (0 : ℕ) < U32 := by norm_num [U32]
    have hdr := drainLoop_inv ((s.expected + 1) % U32) s.buffer
      (s.output ++ writeBytes p) (Nat.mod_lt _ hU) hnd ?_
    · exact ⟨hdr.1, hdr.2.1, hdr.2.2⟩
    · intro pr hpr
      obtain ⟨hgt, hlt⟩ := hb pr hpr
      by_cases hlt1 : s.expected + 1 < U32
      · rw [Nat.mod_eq_of_lt hlt1]
        exact ⟨by omega, hlt⟩
      · exfalso
        omega
  · rw [if_neg h1]
    by_cases h2 : s.expected < p.seq_num
    · rw [if_pos h2]
      refine ⟨he, nodup_insertKey hnd, ?_⟩
      intro pr hpr
      rcases mem_insertKey hpr with hpr | hpr
      · rw [hpr]
        exact ⟨h2, hp⟩
      · exact hb pr hpr
    · rw [if_neg h2]
      exact ⟨he, hnd, hb⟩

/-- A full receiver ingest step preserves the invariant. -/
theorem RecvInv_serverIngest (s : RecvState) (rl : ℤ) (p : Packet)
    (hp : p.seq_num < U32) (h : RecvInv s) :
    RecvInv (serverIngest s rl p).1 := by
  by_cases hrl : rl ≤ 0
  · simpa [serverIngest, hrl] using h
  · by_cases hv : verify_checksum p
    · by_cases hf : (p.flags &&& FINflag) = 0
      · have hstep : (serverIngest s rl p).1 = recvData s p := by
          simp [serverIngest, hrl, hv, hf, stepData]
        rw [hstep]
        exact RecvInv_recvData s p hp h
      · have hstep : (serverIngest s rl p).1 = s := by
          simp [serverIngest, hrl, hv, bne_iff_ne, hf]
        rw [hstep]
        exact h
    · have hstep : (serverIngest s rl p).1 = s := by
        simp [serverIngest, hrl, hv]
      rw [hstep]
      exact h

/-- The C2 property: every buffered key is strictly above the cursor. -/
def BufferAbove (s : RecvState) : Prop :=
  ∀ pr ∈ s.buffer, s.expected < pr.1

/-- An out-of-order data packet with `seq_num = 5` and a correct checksum
(the summed region contains only the byte 5, so the checksum is 65530). -/
def pSeq5 : Packet := { zeroPacket with seq_num := 5, checksum := 65530 }

/-- C2 (confirmed): for every receiver state reachable by ingesting any
sequence of datagrams (with `uint32_t` sequence numbers), every key stored
in the receive buffer is strictly greater than `expected_seq_num`: packets
are inserted only when `seq_num > expected_seq_num`, and the drain loop
removes an entry as soon as its key equals `expected_seq_num`. -/
theorem C2_buffer_above_expected (inputs : List (ℤ × Packet))
    (hseq : ∀ ip ∈ inputs, ip.2.seq_num < U32) :
    BufferAbove (runRecv inputs) := by
  have main : ∀ (l : List (ℤ × Packet)) (s : RecvState), RecvInv s →
      (∀ ip ∈ l, ip.2.seq_num < U32) →
      RecvInv (l.foldl (fun s ip => (serverIngest s ip.1 ip.2).1) s) := by
    intro l
    induction l with
    | nil => intro s hs _; exact hs
    | cons ip rest ih =>
      intro s hs hl
      exact ih ((serverIngest s ip.1 ip.2).1)
        (RecvInv_serverIngest s ip.1 ip.2 (hl ip (List.mem_cons_self _ _)) hs)
        (fun jp hjp => hl jp (List.mem_cons_of_mem _ hjp))
  have hinv : RecvInv (runRecv inputs) := by
    refine main inputs initRecv ⟨?_, ?_, ?_⟩ hseq
    · norm_num [initRecv, U32]
    · simp [initRecv, keysOf]
    · intro pr hpr
      simp [initRecv] at hpr
  exact fun pr hpr => (hinv.2.2 pr hpr).1

/-- Witness for C2: after ingesting the single out-of-order packet with
sequence number 5, the buffer holds key 5 and the cursor is still 1. -/
theorem C2_buffer_above_expected_witness :
    BufferAbove (runRecv [((1500 : ℤ), pSeq5)]) := by
  exact C2_buffer_above_expected [((1500 : ℤ), pSeq5)] (by decide)

/-- The C4 property over one ingest step: the emitted packet exists and is
exactly one ACK (`flags = ACK`) whose `ack_num` is the post-state
`expected_seq_num - 1` in `uint32_t` arithmetic; an already-delivered
packet (`seq_num < expected_seq_num`) leaves the state unchanged and its
re-ACK therefore carries the unchanged `ack_num`. -/
def AckEmission (s : RecvState) (rl : ℤ) (p : Packet) : Prop :=
  ((serverIngest s rl p).2.map Packet.flags = some ACKflag)
  ∧ ((serverIngest s rl p).2.map Packet.ack_num
      = some (((serverIngest s rl p).1.expected + (U32 - 1)) % U32))
  ∧ (p.seq_num < s.expected →
      (serverIngest s rl p).1 = s
      ∧ (serverIngest s rl p).2.map Packet.ack_num
          = some ((s.expected + (U32 - 1)) % U32))

/-- C4 (confirmed): every received data packet — one that passed the
`recv_len` and checksum gates and has no FIN flag — makes the receiver
emit exactly one ACK with `flags = ACK` and
`ack_num = expected_seq_num - 1` taken after any in-order delivery and
buffer drain; a re-sent already-delivered packet is discarded but still
re-ACKed with the unchanged `ack_num`. -/
theorem C4_ack_emission (s : RecvState) (rl : ℤ) (p : Packet)
    (h1 : 0 < rl) (h2 : verify_checksum p = true)
    (h3 : p.flags &&& FINflag = 0) : AckEmission s rl p := by
  have hrl : ¬ rl ≤ 0 := by omega
  have hout : serverIngest s rl p = ((recvData s p),
      some (mkAckPacket (((recvData s p).expected + (U32 - 1)) % U32))) := by
    simp [serverIngest, hrl, h2, h3, stepData]
  refine ⟨?_, ?_, ?_⟩
  · rw [hout]
    simp [mkAckPacket]
  · rw [hout]
    simp [mkAckPacket]
  · intro hold
    have hne : ¬ p.seq_num = s.expected := by omega
    have hngt : ¬ s.expected < p.seq_num := by omega
    have hsame : recvData s p = s := by
      unfold recvData
      rw [if_neg hne, if_neg hngt]
    rw [hout, hsame]
    simp [mkAckPacket]

/-- Witness for C4: the already-delivered all-zero packet (sequence 0,
cursor 1) is discarded, the state is unchanged, and the emitted ACK has
`flags = ACK` and `ack_num = 0`. -/
theorem C4_ack_emission_witness : AckEmission initRecv 1500 pGoodZero := by
  exact C4_ack_emission initRecv 1500 pGoodZero (by decide) (by decide) (by decide)

/-! ## C1: the admission loop versus `floor(cwnd)` -/

/-- A 2961-byte input file (two full 1480-byte payloads plus one byte). -/
def C1file : List ℕ := List.replicate 2961 0

theorem C1file_length : C1file.length = 2961 := by
  rw [C1file, List.length_replicate]

theorem floor_five_halves : ⌊(5 / 2 : ℚ)⌋₊ = 2 := by
  rw [Nat.floor_eq_iff (by norm_num)]
  norm_num

theorem halvedSsthresh_five : halvedSsthresh 5 = 2 := by
  unfold halvedSsthresh
  rw [max_eq_right (by norm_num : (2 : ℚ) ≤ 5 / 2)]
  exact floor_five_halves

theorem min_flow_cwnd :
    min ((HeaderB.FLOW_CONTROL_WINDOW_SIZE : ℕ) : ℚ) (5 / 2) = 5 / 2 := by
  rw [min_eq_right]
  norm_num [HeaderB.FLOW_CONTROL_WINDOW_SIZE]

/-- One admission iteration when the window/input condition holds. -/
theorem sendLoopF_step_true (fuel : ℕ) (w : List (ℕ × Packet)) (ns sent : ℕ)
    (file : List ℕ) (cwnd : ℚ)
    (h : (w.length : ℚ) < min (HeaderB.FLOW_CONTROL_WINDOW_SIZE : ℚ) cwnd
        ∧ sent < file.length) :
    sendLoopF (fuel + 1) w ns sent file cwnd =
      sendLoopF fuel
        (insertKey ns (buildDataPacket ns ((file.drop sent).take
          (min HeaderB.MAX_DATA_SIZE (file.length - sent)))) w)
        ((ns + 1) % U32)
        (sent + min HeaderB.MAX_DATA_SIZE (file.length - sent)) file cwnd := by
  simp only [sendLoopF, if_pos h]

/-- The admission loop stops when the condition fails. -/
theorem sendLoopF_step_false (fuel : ℕ) (w : List (ℕ × Packet)) (ns sent : ℕ)
    (file : List ℕ) (cwnd : ℚ)
    (h : ¬ ((w.length : ℚ) < min (HeaderB.FLOW_CONTROL_WINDOW_SIZE : ℚ) cwnd
        ∧ sent < file.length)) :
    sendLoopF (fuel + 1) w ns sent file cwnd = (w, ns, sent) := by
  simp only [sendLoopF, if_neg h]

/-- C1 (corrected), counterexample: the reachable controller state
after four new ACKs, a timeout, and two further new ACKs has the
fractional congestion window `cwnd = 5/2`; running the admission loop
there on an empty window with 2961 input bytes admits **3** packets,
exceeding `min(FLOW_CONTROL_WINDOW_SIZE, floor(cwnd)) = 2`, so the claimed
bound with `floor` fails. -/
theorem C1_counterexample :
    (applyEvents [CCEvent.newAck, CCEvent.newAck, CCEvent.newAck, CCEvent.newAck,
        CCEvent.timeout, CCEvent.newAck, CCEvent.newAck]).cwnd = 5 / 2
    ∧ (sendLoop [] 1 0 C1file (5 / 2)).1.length = 3
    ∧ ¬ ((3 : ℕ) ≤ min HeaderB.FLOW_CONTROL_WINDOW_SIZE ⌊(5 / 2 : ℚ)⌋₊) := by
  refine ⟨?_, ?_, ?_⟩
  · norm_num [applyEvents, applyEvent, onNewAck, onTimeout, initCC, List.foldl,
      halvedSsthresh_five]
  · rw [sendLoop, C1file_length]
    rw [show (2961 - 0 + 1 : ℕ) = 2961 + 1 from rfl]
    rw [sendLoopF_step_true _ _ _ _ _ _
      ⟨by norm_num [min_flow_cwnd], by rw [C1file_length]; norm_num⟩]
    norm_num [insertKey, C1file_length, HeaderB.MAX_DATA_SIZE,
      HeaderB.MAX_BUFFER_SIZE, HeaderB.HEADER_SIZE, U32, Nat.min_def]
    rw [show (2961 : ℕ) = 2960 + 1 from rfl]
    rw [sendLoopF_step_true _ _ _ _ _ _
      ⟨by norm_num [min_flow_cwnd], by rw [C1file_length]; norm_num⟩]
    norm_num [insertKey, C1file_length, HeaderB.MAX_DATA_SIZE,
      HeaderB.MAX_BUFFER_SIZE, HeaderB.HEADER_SIZE, U32, Nat.min_def]
    rw [show (2960 : ℕ) = 2959 + 1 from rfl]
    rw [sendLoopF_step_true _ _ _ _ _ _
      ⟨by norm_num [min_flow_cwnd], by rw [C1file_length]; norm_num⟩]
    norm_num [insertKey, C1file_length, HeaderB.MAX_DATA_SIZE,
      HeaderB.MAX_BUFFER_SIZE, HeaderB.HEADER_SIZE, U32, Nat.min_def]
    rw [show (2959 : ℕ) = 2958 + 1 from rfl]
    rw [sendLoopF_step_false _ _ _ _ _ _ (by norm_num [min_flow_cwnd])]
    norm_num
  · norm_num [floor_five_halves, HeaderB.FLOW_CONTROL_WINDOW_SIZE]

/-- Length bound for the fuelled admission loop: it never grows the window
beyond `min(FLOW_CONTROL_WINDOW_SIZE, ceil(cwnd))` (it can exceed
`floor(cwnd)` by one when `cwnd` is fractional, but never `ceil(cwnd)`). -/
theorem sendLoopF_length_bound (fuel : ℕ) :
    ∀ (w : List (ℕ × Packet)) (ns sent : ℕ) (file : List ℕ) (cwnd : ℚ),
      (sendLoopF fuel w ns sent file cwnd).1.length
        ≤ max w.length (min HeaderB.FLOW_CONTROL_WINDOW_SIZE ⌈cwnd⌉₊) := by
  induction fuel with
  | zero =>
    intro w ns sent file cwnd
    simp only [sendLoopF]
    exact le_max_left _ _
  | succ fuel ih =>
    intro w ns sent file cwnd
    by_cases h : (w.length : ℚ) < min (HeaderB.FLOW_CONTROL_WINDOW_SIZE : ℚ) cwnd
        ∧ sent < file.length
    · rw [sendLoopF_step_true _ _ _ _ _ _ h]
      have hlt := lt_min_iff.mp h.1
      have hflow : w.length < HeaderB.FLOW_CONTROL_WINDOW_SIZE := by
        exact_mod_cast hlt.1
      have hceil : w.length < ⌈cwnd⌉₊ := Nat.lt_ceil.mpr hlt.2
      have hins : (insertKey ns (buildDataPacket ns ((file.drop sent).take
          (min HeaderB.MAX_DATA_SIZE (file.length - sent)))) w).length
          ≤ min HeaderB.FLOW_CONTROL_WINDOW_SIZE ⌈cwnd⌉₊ := by
        have := insertKey_length (k := ns)
          (v := buildDataPacket ns ((file.drop sent).take
            (min HeaderB.MAX_DATA_SIZE (file.length - sent)))) w
        have hmin : w.length + 1 ≤ min HeaderB.FLOW_CONTROL_WINDOW_SIZE ⌈cwnd⌉₊ :=
          le_min (by omega) (by omega)
        omega
      calc (sendLoopF fuel _ ((ns + 1) % U32)
              (sent + min HeaderB.MAX_DATA_SIZE (file.length - sent)) file cwnd).1.length
            ≤ max (insertKey ns (buildDataPacket ns ((file.drop sent).take
                (min HeaderB.MAX_DATA_SIZE (file.length - sent)))) w).length
                (min HeaderB.FLOW_CONTROL_WINDOW_SIZE ⌈cwnd⌉₊) := ih _ _ _ _ _
        _ ≤ min HeaderB.FLOW_CONTROL_WINDOW_SIZE ⌈cwnd⌉₊ := max_le hins le_rfl
        _ ≤ max w.length (min HeaderB.FLOW_CONTROL_WINDOW_SIZE ⌈cwnd⌉₊) :=
            le_max_right _ _
    · rw [sendLoopF_step_false _ _ _ _ _ _ h]
      exact le_max_left _ _

/-- C1 (amended): immediately after the admission loop the send-window
size is at most `max` of its size before the loop and
`min(FLOW_CONTROL_WINDOW_SIZE, ceil(cwnd))`.  In particular, starting from
a window within the cap, the loop keeps it within
`min(FLOW_CONTROL_WINDOW_SIZE, ceil(cwnd))` — the `floor(cwnd)` bound of
the original claim fails for fractional `cwnd` (see the counterexample),
because the loop compares `size < cwnd` on doubles and so admits one
packet past `floor(cwnd)`. -/
theorem C1_admission_bound :
    ∀ (w : List (ℕ × Packet)) (ns sent : ℕ) (file : List ℕ) (cwnd : ℚ),
      (sendLoop w ns sent file cwnd).1.length
        ≤ max w.length (min HeaderB.FLOW_CONTROL_WINDOW_SIZE ⌈cwnd⌉₊) := by
  intro w ns sent file cwnd
  exact sendLoopF_length_bound _ w ns sent file cwnd
